import Mathlib

/-!
The query layer of `main.go` in groupie_tracker.

A shallow embedding of `filterArtists`, `containsIgnoreCase`, `getConcert` and
`artistPageHandler`.

Go strings are byte sequences, so a string is a list of byte values. The
functions of Go's `strings`, `unicode/utf8`, `unicode` and `strconv` packages that
`main.go` calls are embedded next to it, at the level of bytes and runes.
-/

namespace GroupieTracker

/-! ## Go strings -/

/-- A Go string: its bytes, in order. -/
abbrev GoString := List Nat

/-- The constant `utf8.RuneError` (U+FFFD). -/
def RuneError : Int := 0xFFFD

/-- The constant `utf8.MaxRune` (U+10FFFF). -/
def MaxRune : Int := 0x10FFFF

/-- The range accepted for the second byte after the lead byte `b0`
(the `acceptRanges` table of `unicode/utf8`), `none` when `b0` starts no
multi-byte sequence. The third component is the length of the sequence. -/
def acceptRange (b0 : Nat) : Option (Nat × Nat × Nat) :=
  if 0xC2 ≤ b0 ∧ b0 ≤ 0xDF then some (0x80, 0xBF, 2)
  else if b0 = 0xE0 then some (0xA0, 0xBF, 3)
  else if b0 = 0xED then some (0x80, 0x9F, 3)
  else if 0xE1 ≤ b0 ∧ b0 ≤ 0xEF then some (0x80, 0xBF, 3)
  else if b0 = 0xF0 then some (0x90, 0xBF, 4)
  else if 0xF1 ≤ b0 ∧ b0 ≤ 0xF3 then some (0x80, 0xBF, 4)
  else if b0 = 0xF4 then some (0x80, 0x8F, 4)
  else none

/-- The function `utf8.DecodeRuneInString`: the first rune of `s` and the number of bytes
it occupies; `(RuneError, 0)` for the empty string and `(RuneError, 1)` for an
invalid or truncated sequence. -/
def DecodeRuneInString (s : GoString) : Int × Nat :=
  match s with
  | [] => (RuneError, 0)
  | s0 :: rest =>
    if s0 < 0x80 then ((s0 : Int), 1)
    else
      match acceptRange s0 with
      | none => (RuneError, 1)
      | some (lo, hi, sz) =>
        if s.length < sz then (RuneError, 1)
        else
          match rest with
          | [] => (RuneError, 1)
          | s1 :: rest1 =>
            if s1 < lo ∨ hi < s1 then (RuneError, 1)
            else if sz ≤ 2 then ((((s0 &&& 0x1F) <<< 6 ||| (s1 &&& 0x3F) : Nat) : Int), 2)
            else
              match rest1 with
              | [] => (RuneError, 1)
              | s2 :: rest2 =>
                if s2 < 0x80 ∨ 0xBF < s2 then (RuneError, 1)
                else if sz ≤ 3 then
                  ((((s0 &&& 0x0F) <<< 12 ||| (s1 &&& 0x3F) <<< 6 ||| (s2 &&& 0x3F) : Nat) : Int),
                    3)
                else
                  match rest2 with
                  | [] => (RuneError, 1)
                  | s3 :: _ =>
                    if s3 < 0x80 ∨ 0xBF < s3 then (RuneError, 1)
                    else
                      ((((s0 &&& 0x07) <<< 18 ||| (s1 &&& 0x3F) <<< 12 ||| (s2 &&& 0x3F) <<< 6
                        ||| (s3 &&& 0x3F) : Nat) : Int), 4)

/-- The loop `for _, c := range s` with `skip` bytes of the current rune still to
pass over: at a rune boundary the next rune is decoded and its remaining
`size - 1` bytes are skipped. -/
def rangeRunes : Nat → GoString → List Int
  | _, [] => []
  | skip + 1, _ :: rest => rangeRunes skip rest
  | 0, s0 :: rest =>
    (DecodeRuneInString (s0 :: rest)).1 ::
      rangeRunes ((DecodeRuneInString (s0 :: rest)).2 - 1) rest

/-- The runes of a string as `for _, c := range s` yields them. -/
def decodeRunes (s : GoString) : List Int := rangeRunes 0 s

/-- The bytes `utf8.AppendRune` writes for a non-negative rune given as a
natural number; a surrogate or a value above `MaxRune` is written as
`RuneError`. -/
def encodeNat (i : Nat) : GoString :=
  if i ≤ 0x7F then [i]
  else if i ≤ 0x7FF then [0xC0 ||| (i >>> 6), 0x80 ||| (i &&& 0x3F)]
  else if 0x10FFFF < i ∨ (0xD800 ≤ i ∧ i ≤ 0xDFFF) then [0xEF, 0xBF, 0xBD]
  else if i ≤ 0xFFFF then
    [0xE0 ||| (i >>> 12), 0x80 ||| ((i >>> 6) &&& 0x3F), 0x80 ||| (i &&& 0x3F)]
  else
    [0xF0 ||| (i >>> 18), 0x80 ||| ((i >>> 12) &&& 0x3F), 0x80 ||| ((i >>> 6) &&& 0x3F),
      0x80 ||| (i &&& 0x3F)]

/-- What `strings.Map` appends for one mapped rune: nothing when the rune is
negative, its UTF-8 encoding otherwise. -/
def writeRune (r : Int) : GoString :=
  if r < 0 then [] else encodeNat r.toNat

/-- The function `strings.Map`: every rune of `s` is replaced by its image under `mapping`
and the result is re-encoded. -/
def Map (mapping : Int → Int) (s : GoString) : GoString :=
  ((decodeRunes s).map mapping).flatMap writeRune

/-! ## Case mapping -/

/-- A row of `unicode.CaseRanges`: the runes `Lo..Hi` and the deltas to add for
upper, lower and title case. -/
structure CaseRange where
  Lo : Nat
  Hi : Nat
  upperDelta : Int
  lowerDelta : Int
  titleDelta : Int
  deriving DecidableEq, Repr

/-- The constant `unicode.UpperCase`. -/
def UpperCase : Nat := 0
/-- The constant `unicode.LowerCase`. -/
def LowerCase : Nat := 1

/-- The delta of a row for the requested case. -/
def CaseRange.delta (cr : CaseRange) (case : Nat) : Int :=
  if case = UpperCase then cr.upperDelta
  else if case = LowerCase then cr.lowerDelta
  else cr.titleDelta

/-- The function `to` of package `unicode`: the row containing `r` decides its image; a delta above
`MaxRune` marks an alternating upper/lower sequence, where the low bit of the
offset is set for lower case and cleared for upper case. The rows of the table
are sorted and pairwise disjoint, so the row found by Go's binary search is the
first (and only) one that contains `r`. -/
def unicodeTo (case : Nat) (r : Int) : List CaseRange → Int
  | [] => r
  | cr :: rows =>
    if (cr.Lo : Int) ≤ r ∧ r ≤ (cr.Hi : Int) then
      if cr.delta case > MaxRune then
        (cr.Lo : Int) + ((((r - cr.Lo).toNat / 2) * 2 + case % 2 : Nat) : Int)
      else r + cr.delta case
    else unicodeTo case r rows

/-- The function `unicode.ToLower` over the case table `caseRanges`. -/
def unicodeToLower (caseRanges : List CaseRange) (r : Int) : Int :=
  if r ≤ 0x7F then
    if 0x41 ≤ r ∧ r ≤ 0x5A then r + 0x20 else r
  else unicodeTo LowerCase r caseRanges

/-- The function `unicode.ToUpper` over the case table `caseRanges`. -/
def unicodeToUpper (caseRanges : List CaseRange) (r : Int) : Int :=
  if r ≤ 0x7F then
    if 0x61 ≤ r ∧ r ≤ 0x7A then r - 0x20 else r
  else unicodeTo UpperCase r caseRanges

/-- Every byte of the string is below `utf8.RuneSelf`. -/
def isASCII (s : GoString) : Bool := s.all (fun c => c < 0x80)

/-- The function `strings.ToLower`: ASCII-only strings are mapped byte by byte, the others
through `strings.Map` and `unicode.ToLower`. -/
def ToLower (caseRanges : List CaseRange) (s : GoString) : GoString :=
  if isASCII s then
    s.map (fun c => if 0x41 ≤ c ∧ c ≤ 0x5A then c + 0x20 else c)
  else Map (unicodeToLower caseRanges) s

/-- The function `strings.ToUpper`: ASCII-only strings are mapped byte by byte, the others
through `strings.Map` and `unicode.ToUpper`. -/
def ToUpper (caseRanges : List CaseRange) (s : GoString) : GoString :=
  if isASCII s then
    s.map (fun c => if 0x61 ≤ c ∧ c ≤ 0x7A then c - 0x20 else c)
  else Map (unicodeToUpper caseRanges) s

/-- The function `strings.HasPrefix`. -/
def HasPrefix : GoString → GoString → Bool
  | _, [] => true
  | [], _ :: _ => false
  | c :: s, d :: p => c == d && HasPrefix s p

/-- The function `strings.Contains`: `substr` occurs in `s` at some byte offset. -/
def Contains : GoString → GoString → Bool
  | [], substr => HasPrefix [] substr
  | c :: s, substr => HasPrefix (c :: s) substr || Contains s substr

/-- The bytes of a string literal. -/
def lit (s : String) : GoString :=
  (s.data.map (fun c => (c.toNat : Int))).flatMap writeRune

/-! ## `main.go` -/

/-- The struct `Artist`. -/
structure Artist where
  ID : Int
  Image : GoString
  Name : GoString
  Members : List GoString
  CreationDate : Int
  FirstAlbum : GoString
  Locations : GoString
  ConcertDates : GoString
  deriving DecidableEq, Repr

/-- The struct `ApiRelations`; the map is kept as its list of entries. -/
structure ApiRelations where
  ID : Int
  DatesLocations : List (GoString × List GoString)
  deriving DecidableEq, Repr

/-- The function `containsIgnoreCase` of `main.go`. -/
def containsIgnoreCase (caseRanges : List CaseRange) (s substr : GoString) : Bool :=
  Contains (ToLower caseRanges s) (ToLower caseRanges substr)

/-- The function `filterArtists` of `main.go`: the loop appends every matching artist to
`results`, starting from the nil slice. -/
def filterArtists (caseRanges : List CaseRange) (artists : List Artist) (query : GoString) :
    List Artist :=
  artists.foldl
    (fun results artist =>
      if containsIgnoreCase caseRanges artist.Name query then results ++ [artist] else results)
    []

/-- The zero value of `Artist`, what `var artist Artist` declares. -/
def Artist.zero : Artist := ⟨0, [], [], [], 0, [], [], []⟩

/-- The lookup loop of `artistPageHandler`,
`for _, a := range artistsData { if a.Name == artistName { artist = a; break } }`,
as a function of the remaining elements and the current value of `artist`. -/
def lookupLoop (artistName : GoString) : List Artist → Artist → Artist
  | [], artist => artist
  | a :: rest, artist => if a.Name = artistName then a else lookupLoop artistName rest artist

/-- The function `strconv.Itoa`: the decimal digits, after a minus sign for a negative
number. -/
def Itoa (i : Int) : GoString :=
  match i with
  | Int.ofNat n => (Nat.toDigits 10 n).map Char.toNat
  | Int.negSucc n => 0x2D :: (Nat.toDigits 10 (n + 1)).map Char.toNat

/-- The constant `apiURL`. -/
def apiURL : GoString := lit "https://groupietrackers.herokuapp.com/api/artists"

/-- The constant `apiUrlRelations`. -/
def apiUrlRelations : GoString := lit "https://groupietrackers.herokuapp.com/api/relation"

/-- An error value, as returned by `http.Get` or by the JSON decoder. -/
inductive GoError
  | transport
  | decode
  deriving DecidableEq, Repr

/-- What lies outside the process: the upstream service, the JSON decoder applied
to a response body, and the template files. -/
structure Env where
  /-- The call `http.Get(url)`: the response body or an error. -/
  httpGet : GoString → Except GoError GoString
  /-- Decoding a body into `[]Artist`. -/
  decodeArtists : GoString → Except GoError (List Artist)
  /-- Decoding a body into `ApiRelations`. -/
  decodeRelation : GoString → Except GoError ApiRelations
  /-- Whether `template.ParseFiles` succeeds on the named file. -/
  parseFiles : GoString → Bool
  /-- Whether `tmpl.Execute` succeeds on the detail data. -/
  executeDetail : Artist → ApiRelations → Bool

/-- An observable action of a handler. -/
inductive Event
  /-- A GET request sent upstream. -/
  | get (url : GoString)
  /-- The call `http.Error(w, _, code)`. -/
  | httpError (code : Nat)
  /-- The call `tmpl.Execute(w, data)` of the named template on the detail data. -/
  | execute (name : GoString) (artist : Artist) (relations : ApiRelations)
  /-- The call `log.Fatal`, which ends the process with `os.Exit(1)`. -/
  | fatal
  deriving DecidableEq, Repr

/-- A computation of the process: the events it produced and its result, `none`
once the process has exited. -/
structure Proc (α : Type) where
  events : List Event
  result : Option α
  deriving DecidableEq, Repr

/-- Return a value without any event. -/
def Proc.pure {α : Type} (a : α) : Proc α := ⟨[], some a⟩

/-- Sequencing: nothing runs after the process has exited. -/
def Proc.bind {α β : Type} (x : Proc α) (f : α → Proc β) : Proc β :=
  match x.result with
  | none => ⟨x.events, none⟩
  | some a => ⟨x.events ++ (f a).events, (f a).result⟩

instance : Monad Proc where
  pure := Proc.pure
  bind := Proc.bind

/-- Produce one event and go on. -/
def emit (e : Event) : Proc Unit := ⟨[e], some ()⟩

/-- The call `log.Fatal(err)`: the process exits, nothing after it runs. -/
def logFatal : Proc Unit := ⟨[Event.fatal], none⟩

/-- The function `fetchData` of `main.go`, at the type `[]Artist` of its only callers. -/
def fetchData (env : Env) (url : GoString) : Proc (Except GoError (List Artist)) := do
  emit (Event.get url)
  match env.httpGet url with
  | Except.error err => return Except.error err
  | Except.ok body =>
    match env.decodeArtists body with
    | Except.error err => return Except.error err
    | Except.ok data => return Except.ok data

/-- The function `getConcert` of `main.go`. Each `return nil, err` comes after a
`log.Fatal(err)`. -/
def getConcert (env : Env) (id : GoString) : Proc (Except GoError ApiRelations) := do
  emit (Event.get (apiUrlRelations ++ lit "/" ++ id))
  match env.httpGet (apiUrlRelations ++ lit "/" ++ id) with
  | Except.error err =>
    logFatal
    return Except.error err
  | Except.ok body =>
    match env.decodeRelation body with
    | Except.error err =>
      logFatal
      return Except.error err
    | Except.ok relation => return Except.ok relation

/-- An inbound request: the pairs of its URL query, in order. -/
structure Request where
  query : List (GoString × GoString)

/-- The call `r.URL.Query().Get(key)`: the first value of the key, the empty string
when the key is missing. -/
def Request.Get (r : Request) (key : GoString) : GoString :=
  match r.query.find? (fun kv => kv.1 == key) with
  | some kv => kv.2
  | none => []

/-- The function `artistPageHandler` of `main.go`. The diagnostics printed with
`fmt.Println` are left out. -/
def artistPageHandler (env : Env) (r : Request) : Proc Unit := do
  match ← fetchData env apiURL with
  | Except.error _ => emit (Event.httpError 500)
  | Except.ok artistsData =>
    let artistName := r.Get (lit "artist")
    if artistName = [] then emit (Event.httpError 400)
    else
      let artist := lookupLoop artistName artistsData Artist.zero
      match ← getConcert env (Itoa artist.ID) with
      | Except.error _ => emit (Event.httpError 500)
      | Except.ok apiRelations =>
        if env.parseFiles (lit "templates/artistpage.html") then
          emit (Event.execute (lit "templates/artistpage.html") artist apiRelations)
          if env.executeDetail artist apiRelations then return ()
          else emit (Event.httpError 500)
        else emit (Event.httpError 500)

/-- Two rows of Go's `unicode.CaseRanges`, `{0x0131, 0x0131, d{-232, 0, -232}}`
(dotless i, whose upper case is `I`) and `{0x017F, 0x017F, d{-300, 0, -300}}`
(long s, whose upper case is `S`). These are the only rows a string made of ASCII
characters, U+0131 and U+017F consults. -/
def caseRangesExcerpt : List CaseRange :=
  [⟨0x0131, 0x0131, -232, 0, -232⟩, ⟨0x017F, 0x017F, -300, 0, -300⟩]

/-- An artist with the given identifier and name, the other fields empty. -/
def mkArtist (id : Int) (name : String) : Artist :=
  ⟨id, [], lit name, [], 0, [], [], []⟩

/-- The URLs of the GET requests among the events, in order. -/
def requests : List Event → List GoString
  | [] => []
  | Event.get url :: es => url :: requests es
  | _ :: es => requests es

/-- The artist list of the example of the specification. -/
def exampleArtists : List Artist :=
  [mkArtist 1 "Queen", mkArtist 2 "queens of the stone age"]

/-- An environment for the examples: the artists endpoint answers `artistsGet`, every
other URL answers `relationGet`, an artists body decodes to `exampleArtists`, a
relation body decodes to `relationDecode`, and the templates parse and execute. -/
def exampleEnv (artistsGet relationGet : Except GoError GoString)
    (relationDecode : Except GoError ApiRelations) : Env where
  httpGet := fun url => if url = apiURL then artistsGet else relationGet
  decodeArtists := fun _ => Except.ok exampleArtists
  decodeRelation := fun _ => relationDecode
  parseFiles := fun _ => true
  executeDetail := fun _ _ => true

/-- A request whose query is `artist=<name>`. -/
def artistRequest (name : String) : Request := ⟨[(lit "artist", lit name)]⟩

/-! ## Lemmas on the string functions -/

theorem HasPrefix_iff (s p : GoString) : HasPrefix s p = true ↔ p <+: s := by
  induction s generalizing p with
  | nil =>
    cases p with
    | nil => simp [HasPrefix]
    | cons d p => simp [HasPrefix]
  | cons c s ih =>
    cases p with
    | nil => simp [HasPrefix]
    | cons d p =>
      simp only [HasPrefix, Bool.and_eq_true, beq_iff_eq, ih, List.cons_prefix_cons]
      constructor
      · rintro ⟨h1, h2⟩
        exact ⟨h1.symm, h2⟩
      · rintro ⟨h1, h2⟩
        exact ⟨h1.symm, h2⟩

theorem Contains_iff (s substr : GoString) : Contains s substr = true ↔ substr <:+: s := by
  induction s with
  | nil =>
    simp only [Contains, HasPrefix_iff]
    constructor
    · intro h
      exact h.isInfix
    · intro h
      rw [List.eq_nil_of_infix_nil h]
  | cons c s ih =>
    simp only [Contains, Bool.or_eq_true, HasPrefix_iff, ih, List.infix_cons_iff]

theorem foldl_append_eq_filter (p : Artist → Bool) (l acc : List Artist) :
    l.foldl (fun results artist => if p artist then results ++ [artist] else results) acc
      = acc ++ l.filter p := by
  induction l generalizing acc with
  | nil => simp
  | cons a l ih =>
    simp only [List.foldl_cons, ih, List.filter_cons]
    by_cases h : p a = true <;> simp [h]

theorem filterArtists_eq_filter (caseRanges : List CaseRange) (artists : List Artist)
    (query : GoString) :
    filterArtists caseRanges artists query
      = artists.filter (fun a => containsIgnoreCase caseRanges a.Name query) := by
  unfold filterArtists
  rw [foldl_append_eq_filter (fun a => containsIgnoreCase caseRanges a.Name query)]
  simp

theorem containsIgnoreCase_iff (caseRanges : List CaseRange) (s substr : GoString) :
    containsIgnoreCase caseRanges s substr = true
      ↔ ToLower caseRanges substr <:+: ToLower caseRanges s := by
  simp [containsIgnoreCase, Contains_iff]

theorem ToLower_nil (caseRanges : List CaseRange) : ToLower caseRanges [] = [] := by
  simp [ToLower, isASCII]

theorem isASCII_cons (c : Nat) (s : GoString) :
    isASCII (c :: s) = true ↔ c < 0x80 ∧ isASCII s = true := by
  simp [isASCII]

theorem rangeRunes_ascii (s : GoString) (h : isASCII s = true) :
    rangeRunes 0 s = s.map (fun (c : Nat) => (c : Int)) := by
  induction s with
  | nil => simp [rangeRunes]
  | cons c s ih =>
    rw [isASCII_cons] at h
    have hd : DecodeRuneInString (c :: s) = ((c : Int), 1) := by
      simp [DecodeRuneInString, h.1]
    simp [rangeRunes, hd, ih h.2]

theorem writeRune_ascii (c : Nat) (h : c < 0x80) : writeRune (c : Int) = [c] := by
  have h1 : ¬ ((c : Int) < 0) := by omega
  have h2 : c ≤ 0x7F := by omega
  simp [writeRune, encodeNat, h1, h2]

theorem unicodeToLower_ascii (caseRanges : List CaseRange) (c : Nat) (h : c < 0x80) :
    writeRune (unicodeToLower caseRanges (c : Int))
      = [if 0x41 ≤ c ∧ c ≤ 0x5A then c + 0x20 else c] := by
  have hc : (c : Int) ≤ 0x7F := by omega
  by_cases hu : 0x41 ≤ c ∧ c ≤ 0x5A
  · have hu2 : (0x41 : Int) ≤ (c : Int) ∧ (c : Int) ≤ 0x5A := by omega
    have e : unicodeToLower caseRanges (c : Int) = ((c + 0x20 : Nat) : Int) := by
      simp [unicodeToLower, hc, hu2]
    rw [e, writeRune_ascii (c + 0x20) (by omega), if_pos hu]
  · have hu2 : ¬ ((0x41 : Int) ≤ (c : Int) ∧ (c : Int) ≤ 0x5A) := by omega
    have e : unicodeToLower caseRanges (c : Int) = (c : Int) := by
      simp only [unicodeToLower, hc, hu2, if_true, if_false]
    rw [e, writeRune_ascii c h, if_neg hu]

theorem flatMap_lower_ascii (caseRanges : List CaseRange) (s : GoString)
    (h : isASCII s = true) :
    ((s.map (fun (c : Nat) => (c : Int))).map (unicodeToLower caseRanges)).flatMap writeRune
      = s.map (fun c => if 0x41 ≤ c ∧ c ≤ 0x5A then c + 0x20 else c) := by
  induction s with
  | nil => simp
  | cons c s ih =>
    rw [isASCII_cons] at h
    simp only [List.map_cons, List.flatMap_cons, ih h.2, unicodeToLower_ascii caseRanges c h.1]
    rfl

theorem Map_lower_ascii (caseRanges : List CaseRange) (s : GoString) (h : isASCII s = true) :
    Map (unicodeToLower caseRanges) s
      = s.map (fun c => if 0x41 ≤ c ∧ c ≤ 0x5A then c + 0x20 else c) := by
  unfold Map decodeRunes
  rw [rangeRunes_ascii s h]
  exact flatMap_lower_ascii caseRanges s h

theorem ToLower_eq_Map (caseRanges : List CaseRange) (s : GoString) :
    ToLower caseRanges s = Map (unicodeToLower caseRanges) s := by
  unfold ToLower
  by_cases h : isASCII s = true
  · rw [if_pos h, Map_lower_ascii caseRanges s h]
  · rw [if_neg h]

theorem flatMap_mono {α β : Type} (f : α → List β) (l₁ l₂ : List α) (h : l₁ <:+: l₂) :
    l₁.flatMap f <:+: l₂.flatMap f := by
  obtain ⟨u, v, rfl⟩ := h
  exact ⟨u.flatMap f, v.flatMap f, by simp [List.flatMap_append]⟩

theorem ToLower_mono (caseRanges : List CaseRange) (q' q : GoString)
    (h : decodeRunes q' <:+: decodeRunes q) :
    ToLower caseRanges q' <:+: ToLower caseRanges q := by
  rw [ToLower_eq_Map, ToLower_eq_Map]
  exact flatMap_mono _ _ _ (h.map _)

theorem ToUpper_ascii (caseRanges : List CaseRange) (s : GoString) (h : isASCII s = true) :
    isASCII (ToUpper caseRanges s) = true := by
  unfold ToUpper
  rw [if_pos h]
  induction s with
  | nil => simp [isASCII]
  | cons c s ih =>
    rw [isASCII_cons] at h
    rw [List.map_cons, isASCII_cons]
    refine ⟨?_, ih h.2⟩
    split <;> omega

theorem ToLower_ToUpper_ascii (caseRanges : List CaseRange) (s : GoString)
    (h : isASCII s = true) :
    ToLower caseRanges (ToUpper caseRanges s) = ToLower caseRanges s := by
  have hu := ToUpper_ascii caseRanges s h
  unfold ToLower
  rw [if_pos hu, if_pos h]
  unfold ToUpper
  rw [if_pos h, List.map_map]
  apply List.map_congr_left
  intro c _
  simp only [Function.comp]
  split_ifs <;> omega

theorem ToLower_ascii (caseRanges : List CaseRange) (s : GoString) (h : isASCII s = true) :
    isASCII (ToLower caseRanges s) = true := by
  unfold ToLower
  rw [if_pos h]
  induction s with
  | nil => simp [isASCII]
  | cons c s ih =>
    rw [isASCII_cons] at h
    rw [List.map_cons, isASCII_cons]
    refine ⟨?_, ih h.2⟩
    split <;> omega

theorem ToLower_ToLower_ascii (caseRanges : List CaseRange) (s : GoString)
    (h : isASCII s = true) :
    ToLower caseRanges (ToLower caseRanges s) = ToLower caseRanges s := by
  have hu := ToLower_ascii caseRanges s h
  rw [ToLower, if_pos hu]
  unfold ToLower
  rw [if_pos h, List.map_map]
  apply List.map_congr_left
  intro c _
  simp only [Function.comp]
  split_ifs <;> omega

/-! ## The search filter -/

/-- C1: `filterArtists artists query` is the list of the artists whose lower-cased
name contains the lower-cased query as a contiguous substring, in the order of
`artists`, each kept once and unchanged: it equals the filter of `artists` by that
predicate, it is a sublist of `artists`, and an artist is in it exactly when it is
in `artists` and matches. On `[Queen (1), queens of the stone age (2)]` the query
`queen` gives both, in that order. -/
theorem filterArtists_spec (caseRanges : List CaseRange) (artists : List Artist)
    (query : GoString) :
    filterArtists caseRanges artists query
        = artists.filter
            (fun a => decide (ToLower caseRanges query <:+: ToLower caseRanges a.Name))
      ∧ (filterArtists caseRanges artists query).Sublist artists
      ∧ (∀ a, a ∈ filterArtists caseRanges artists query
            ↔ a ∈ artists ∧ ToLower caseRanges query <:+: ToLower caseRanges a.Name)
      ∧ filterArtists caseRanges [mkArtist 1 "Queen", mkArtist 2 "queens of the stone age"]
            (lit "queen")
          = [mkArtist 1 "Queen", mkArtist 2 "queens of the stone age"] := by
  have e : filterArtists caseRanges artists query
      = artists.filter
          (fun a => decide (ToLower caseRanges query <:+: ToLower caseRanges a.Name)) := by
    rw [filterArtists_eq_filter]
    apply List.filter_congr
    intro a _
    rw [Bool.eq_iff_iff, containsIgnoreCase_iff]
    simp
  refine ⟨e, ?_, ?_, ?_⟩
  · rw [e]
    exact List.filter_sublist _
  · intro a
    rw [e, List.mem_filter]
    simp
  · rfl

/-- C5: with the empty query `filterArtists` returns the whole list of artists,
unchanged and in the same order. -/
theorem filterArtists_empty_query (caseRanges : List CaseRange) (artists : List Artist) :
    filterArtists caseRanges artists [] = artists := by
  rw [filterArtists_eq_filter]
  apply List.filter_eq_self.mpr
  intro a _
  rw [containsIgnoreCase_iff, ToLower_nil]
  exact List.nil_infix

/-- C9, refuted as stated: with the artist name `Sıla` (dotless i, U+0131) the query
`sıla` matches, but its upper case `SILA` does not, and the upper-cased name
`SILA` is not matched by the query `sıla` either. -/
theorem containsIgnoreCase_ToUpper_counterexample :
    ToUpper caseRangesExcerpt (lit "sıla") = lit "SILA"
      ∧ containsIgnoreCase caseRangesExcerpt (lit "Sıla") (lit "sıla") = true
      ∧ containsIgnoreCase caseRangesExcerpt (lit "Sıla")
          (ToUpper caseRangesExcerpt (lit "sıla")) = false
      ∧ containsIgnoreCase caseRangesExcerpt (ToUpper caseRangesExcerpt (lit "Sıla"))
          (lit "sıla") = false
      ∧ filterArtists caseRangesExcerpt [mkArtist 1 "Sıla"] (lit "sıla") = [mkArtist 1 "Sıla"]
      ∧ filterArtists caseRangesExcerpt [mkArtist 1 "Sıla"]
          (ToUpper caseRangesExcerpt (lit "sıla")) = [] := by
  decide

/-- C9, amended: for a name `s` and a query `q` made of ASCII bytes only,
`containsIgnoreCase` gives the same answer when `s` or `q` is upper-cased, and for
every artist list `filterArtists` gives the same result for `q`, for its upper case
and for its lower case. -/
theorem containsIgnoreCase_case_insensitive_ascii (caseRanges : List CaseRange)
    (s q : GoString) (artists : List Artist)
    (hs : isASCII s = true) (hq : isASCII q = true) :
    containsIgnoreCase caseRanges s q
        = containsIgnoreCase caseRanges (ToUpper caseRanges s) q
      ∧ containsIgnoreCase caseRanges s q
        = containsIgnoreCase caseRanges s (ToUpper caseRanges q)
      ∧ filterArtists caseRanges artists q
        = filterArtists caseRanges artists (ToUpper caseRanges q)
      ∧ filterArtists caseRanges artists q
        = filterArtists caseRanges artists (ToLower caseRanges q) := by
  refine ⟨?_, ?_, ?_, ?_⟩
  · simp only [containsIgnoreCase, ToLower_ToUpper_ascii caseRanges s hs]
  · simp only [containsIgnoreCase, ToLower_ToUpper_ascii caseRanges q hq]
  · simp only [filterArtists, containsIgnoreCase, ToLower_ToUpper_ascii caseRanges q hq]
  · simp only [filterArtists, containsIgnoreCase, ToLower_ToLower_ascii caseRanges q hq]

/-- Witness of the amended C9: the name `Queen` and the query `uEe`. -/
theorem containsIgnoreCase_case_insensitive_ascii_witness :
    isASCII (lit "Queen") = true ∧ isASCII (lit "uEe") = true
      ∧ containsIgnoreCase caseRangesExcerpt (lit "Queen") (lit "uEe")
        = containsIgnoreCase caseRangesExcerpt (ToUpper caseRangesExcerpt (lit "Queen"))
            (lit "uEe")
      ∧ filterArtists caseRangesExcerpt [mkArtist 1 "Queen", mkArtist 2 "Sıla"] (lit "uEe")
        = filterArtists caseRangesExcerpt [mkArtist 1 "Queen", mkArtist 2 "Sıla"]
            (ToUpper caseRangesExcerpt (lit "uEe")) :=
  have h := containsIgnoreCase_case_insensitive_ascii caseRangesExcerpt (lit "Queen")
    (lit "uEe") [mkArtist 1 "Queen", mkArtist 2 "Sıla"] (by decide) (by decide)
  ⟨by decide, by decide, h.1, h.2.2.1⟩

/-- C10: when the runes of `q'` form a contiguous block of the runes of `q`, every
result for `q` is a result for `q'`: `filterArtists artists q` is a sublist of
`filterArtists artists q'`. -/
theorem filterArtists_longer_query (caseRanges : List CaseRange) (artists : List Artist)
    (q q' : GoString) (h : decodeRunes q' <:+: decodeRunes q) :
    (filterArtists caseRanges artists q).Sublist (filterArtists caseRanges artists q')
      ∧ ∀ a, a ∈ filterArtists caseRanges artists q → a ∈ filterArtists caseRanges artists q' := by
  have hsub : (filterArtists caseRanges artists q).Sublist
      (filterArtists caseRanges artists q') := by
    rw [filterArtists_eq_filter, filterArtists_eq_filter]
    apply List.monotone_filter_right
    intro a ha
    rw [containsIgnoreCase_iff] at ha ⊢
    exact (ToLower_mono caseRanges q' q h).trans ha
  exact ⟨hsub, fun a ha => hsub.subset ha⟩

/-- Witness of C10: `uee` is a block of `Queen`. -/
theorem filterArtists_longer_query_witness :
    decodeRunes (lit "uee") <:+: decodeRunes (lit "Queen")
      ∧ (filterArtists caseRangesExcerpt [mkArtist 1 "Queen", mkArtist 2 "Tuee"]
          (lit "Queen")).Sublist
        (filterArtists caseRangesExcerpt [mkArtist 1 "Queen", mkArtist 2 "Tuee"] (lit "uee")) :=
  ⟨by decide,
    (filterArtists_longer_query caseRangesExcerpt [mkArtist 1 "Queen", mkArtist 2 "Tuee"]
      (lit "Queen") (lit "uee") (by decide)).1⟩

/-- Remark on C10: the runes matter. The single byte 0xC3 is a byte-wise part of
`é` (0xC3 0xA9) but no rune of it (alone it decodes to `RuneError`), and the
query `é`, which lower-casing leaves unchanged, finds the artist `é` while the
query 0xC3 does not. -/
theorem filterArtists_split_rune_remark :
    [0xC3] <:+: lit "é"
      ∧ ¬ (decodeRunes [0xC3] <:+: decodeRunes (lit "é"))
      ∧ filterArtists caseRangesExcerpt [mkArtist 1 "é"] (lit "é") = [mkArtist 1 "é"]
      ∧ filterArtists caseRangesExcerpt [mkArtist 1 "é"] [0xC3] = [] := by
  decide

/-! ## The detail handler -/

theorem fetchData_eq (env : Env) (url : GoString) :
    fetchData env url =
      ⟨[Event.get url],
        some (match env.httpGet url with
          | Except.error err => Except.error err
          | Except.ok body => env.decodeArtists body)⟩ := by
  unfold fetchData
  cases h : env.httpGet url with
  | error err => rfl
  | ok body =>
    cases h2 : env.decodeArtists body with
    | error err => simp [bind, Proc.bind, emit, pure, Proc.pure, h2]
    | ok data => simp [bind, Proc.bind, emit, pure, Proc.pure, h2]

theorem getConcert_eq (env : Env) (id : GoString) :
    getConcert env id =
      match env.httpGet (apiUrlRelations ++ lit "/" ++ id) with
      | Except.error _ => ⟨[Event.get (apiUrlRelations ++ lit "/" ++ id), Event.fatal], none⟩
      | Except.ok body =>
        match env.decodeRelation body with
        | Except.error _ => ⟨[Event.get (apiUrlRelations ++ lit "/" ++ id), Event.fatal], none⟩
        | Except.ok relation =>
          ⟨[Event.get (apiUrlRelations ++ lit "/" ++ id)], some (Except.ok relation)⟩ := by
  unfold getConcert
  cases h : env.httpGet (apiUrlRelations ++ lit "/" ++ id) with
  | error err => rfl
  | ok body =>
    cases h2 : env.decodeRelation body with
    | error err => simp [bind, Proc.bind, emit, pure, Proc.pure, logFatal, h2]
    | ok data => simp [bind, Proc.bind, emit, pure, Proc.pure, h2]

theorem artistPageHandler_fetch_error (env : Env) (r : Request) (err : GoError)
    (h : (match env.httpGet apiURL with
          | Except.error err => Except.error err
          | Except.ok body => env.decodeArtists body) = Except.error err) :
    artistPageHandler env r = ⟨[Event.get apiURL, Event.httpError 500], some ()⟩ := by
  unfold artistPageHandler
  rw [fetchData_eq, h]
  rfl

theorem artistPageHandler_empty_name (env : Env) (r : Request) (artistsData : List Artist)
    (h : (match env.httpGet apiURL with
          | Except.error err => Except.error err
          | Except.ok body => env.decodeArtists body) = Except.ok artistsData)
    (hname : r.Get (lit "artist") = []) :
    artistPageHandler env r = ⟨[Event.get apiURL, Event.httpError 400], some ()⟩ := by
  unfold artistPageHandler
  rw [fetchData_eq, h]
  simp [bind, Proc.bind, hname, emit]

theorem artistPageHandler_named (env : Env) (r : Request) (artistsData : List Artist)
    (h : (match env.httpGet apiURL with
          | Except.error err => Except.error err
          | Except.ok body => env.decodeArtists body) = Except.ok artistsData)
    (hname : r.Get (lit "artist") ≠ []) :
    artistPageHandler env r =
      match env.httpGet (apiUrlRelations ++ lit "/"
          ++ Itoa (lookupLoop (r.Get (lit "artist")) artistsData Artist.zero).ID) with
      | Except.error _ =>
        ⟨[Event.get apiURL, Event.get (apiUrlRelations ++ lit "/"
            ++ Itoa (lookupLoop (r.Get (lit "artist")) artistsData Artist.zero).ID),
          Event.fatal], none⟩
      | Except.ok body =>
        match env.decodeRelation body with
        | Except.error _ =>
          ⟨[Event.get apiURL, Event.get (apiUrlRelations ++ lit "/"
              ++ Itoa (lookupLoop (r.Get (lit "artist")) artistsData Artist.zero).ID),
            Event.fatal], none⟩
        | Except.ok relation =>
          ⟨[Event.get apiURL, Event.get (apiUrlRelations ++ lit "/"
              ++ Itoa (lookupLoop (r.Get (lit "artist")) artistsData Artist.zero).ID)]
            ++ (if env.parseFiles (lit "templates/artistpage.html") then
                  Event.execute (lit "templates/artistpage.html")
                      (lookupLoop (r.Get (lit "artist")) artistsData Artist.zero) relation
                    :: (if env.executeDetail
                          (lookupLoop (r.Get (lit "artist")) artistsData Artist.zero) relation
                        then [] else [Event.httpError 500])
                else [Event.httpError 500]),
            some ()⟩ := by
  unfold artistPageHandler
  rw [fetchData_eq, h]
  simp only [bind, Proc.bind, hname, if_false]
  rw [getConcert_eq]
  cases h1 : env.httpGet (apiUrlRelations ++ lit "/"
      ++ Itoa (lookupLoop (r.Get (lit "artist")) artistsData Artist.zero).ID) with
  | error err => simp only [List.singleton_append]
  | ok body =>
    cases h2 : env.decodeRelation body with
    | error err => simp only [h2, List.singleton_append]
    | ok relation =>
      by_cases hp : env.parseFiles (lit "templates/artistpage.html") = true
      · by_cases he : env.executeDetail
            (lookupLoop (r.Get (lit "artist")) artistsData Artist.zero) relation = true
        · simp [h2, hp, he, emit, bind, Proc.bind, pure, Proc.pure]
        · simp [h2, hp, he, emit, bind, Proc.bind, pure, Proc.pure]
      · simp [h2, hp, emit]

theorem lookupLoop_no_match (artistName : GoString) (artists : List Artist) (artist : Artist)
    (h : ∀ a ∈ artists, a.Name ≠ artistName) :
    lookupLoop artistName artists artist = artist := by
  induction artists with
  | nil => rfl
  | cons a rest ih =>
    have ha : a.Name ≠ artistName := h a (List.mem_cons_self a rest)
    simp only [lookupLoop, ha, if_false]
    exact ih (fun b hb => h b (List.mem_cons_of_mem a hb))

theorem lookupLoop_first (artistName : GoString) (artists : List Artist) (artist : Artist)
    (h : ∃ a ∈ artists, a.Name = artistName) :
    ∃ i : Nat, artists[i]? = some (lookupLoop artistName artists artist)
      ∧ (lookupLoop artistName artists artist).Name = artistName
      ∧ ∀ j : Nat, j < i → ∀ b : Artist, artists[j]? = some b → b.Name ≠ artistName := by
  induction artists with
  | nil =>
    obtain ⟨a, ha, _⟩ := h
    cases ha
  | cons a rest ih =>
    by_cases ha : a.Name = artistName
    · refine ⟨0, ?_, ?_, ?_⟩
      · simp [lookupLoop, ha]
      · simp [lookupLoop, ha]
      · intro j hj
        omega
    · have h2 : ∃ b ∈ rest, b.Name = artistName := by
        obtain ⟨b, hb, hbn⟩ := h
        rcases List.mem_cons.mp hb with rfl | hb2
        · exact absurd hbn ha
        · exact ⟨b, hb2, hbn⟩
      obtain ⟨i, hi1, hi2, hi3⟩ := ih h2
      refine ⟨i + 1, ?_, ?_, ?_⟩
      · simpa [lookupLoop, ha] using hi1
      · simpa [lookupLoop, ha] using hi2
      · intro j hj b hb
        cases j with
        | zero =>
          simp only [List.getElem?_cons_zero, Option.some.injEq] at hb
          rw [← hb]
          exact ha
        | succ k =>
          simp only [List.getElem?_cons_succ] at hb
          exact hi3 k (by omega) b hb

theorem fetch_ok (env : Env) (body : GoString) (artists : List Artist)
    (hget : env.httpGet apiURL = Except.ok body)
    (hdec : env.decodeArtists body = Except.ok artists) :
    (match env.httpGet apiURL with
      | Except.error err => Except.error err
      | Except.ok body => env.decodeArtists body) = Except.ok artists := by
  rw [hget]
  exact hdec

theorem Itoa_zero : Itoa Artist.zero.ID = lit "0" := by decide

theorem Itoa_examples :
    Itoa 1 = lit "1" ∧ Itoa 52 = lit "52" ∧ Itoa 1200 = lit "1200" ∧ Itoa (-7) = lit "-7" := by
  decide

theorem requests_named (env : Env) (r : Request) (artistsData : List Artist)
    (h : (match env.httpGet apiURL with
          | Except.error err => Except.error err
          | Except.ok body => env.decodeArtists body) = Except.ok artistsData)
    (hname : r.Get (lit "artist") ≠ []) :
    requests (artistPageHandler env r).events
      = [apiURL, apiUrlRelations ++ lit "/"
          ++ Itoa (lookupLoop (r.Get (lit "artist")) artistsData Artist.zero).ID] := by
  rw [artistPageHandler_named env r artistsData h hname]
  cases h1 : env.httpGet (apiUrlRelations ++ lit "/"
      ++ Itoa (lookupLoop (r.Get (lit "artist")) artistsData Artist.zero).ID) with
  | error err => simp only [requests]
  | ok body =>
    cases h2 : env.decodeRelation body with
    | error err => simp only [h2, requests]
    | ok relation =>
      by_cases hp : env.parseFiles (lit "templates/artistpage.html") = true
      · by_cases he : env.executeDetail
            (lookupLoop (r.Get (lit "artist")) artistsData Artist.zero) relation = true
        · simp [h2, hp, he, requests]
        · simp [h2, hp, he, requests]
      · simp [h2, hp, requests]

/-- C4: when some artist of the list has exactly the requested name, the lookup loop
of `artistPageHandler` selects the artist at the smallest index with that name: the
artist at an index `i` such that no artist before `i` has the name. Looking up
`Queen` in `[Queen (1), queens of the stone age (2)]` selects the artist 1. -/
theorem lookup_selects_first_match (artistName : GoString) (artists : List Artist)
    (h : ∃ a ∈ artists, a.Name = artistName) :
    (∃ i : Nat, artists[i]? = some (lookupLoop artistName artists Artist.zero)
        ∧ (lookupLoop artistName artists Artist.zero).Name = artistName
        ∧ ∀ j : Nat, j < i → ∀ b : Artist, artists[j]? = some b → b.Name ≠ artistName)
      ∧ lookupLoop (lit "Queen") exampleArtists Artist.zero = mkArtist 1 "Queen" :=
  ⟨lookupLoop_first artistName artists Artist.zero h, by decide⟩

/-- Witness of C4: two artists named `Queen`, the first one is selected. -/
theorem lookup_selects_first_match_witness :
    (∃ a ∈ [mkArtist 7 "Muse", mkArtist 1 "Queen", mkArtist 3 "Queen"], a.Name = lit "Queen")
      ∧ lookupLoop (lit "Queen") [mkArtist 7 "Muse", mkArtist 1 "Queen", mkArtist 3 "Queen"]
          Artist.zero = mkArtist 1 "Queen"
      ∧ ∃ i : Nat, [mkArtist 7 "Muse", mkArtist 1 "Queen", mkArtist 3 "Queen"][i]?
          = some (lookupLoop (lit "Queen")
              [mkArtist 7 "Muse", mkArtist 1 "Queen", mkArtist 3 "Queen"] Artist.zero) :=
  have hex : ∃ a ∈ [mkArtist 7 "Muse", mkArtist 1 "Queen", mkArtist 3 "Queen"],
      a.Name = lit "Queen" := ⟨mkArtist 1 "Queen", by decide, by decide⟩
  have h := (lookup_selects_first_match (lit "Queen")
    [mkArtist 7 "Muse", mkArtist 1 "Queen", mkArtist 3 "Queen"] hex).1
  ⟨hex, by decide, h.elim (fun i hi => ⟨i, hi.1⟩)⟩

/-- C2, refuted as stated: no artist of `[Queen, queens of the stone age]` is named
`nonexistent`, yet the lookup yields the zero-valued `Artist` and the handler hands
it to the template together with the relation of identifier 0, reporting no
error. -/
theorem lookup_not_found_counterexample :
    lookupLoop (lit "nonexistent") exampleArtists Artist.zero = Artist.zero
      ∧ Artist.zero.ID = 0 ∧ Artist.zero.Name = []
      ∧ artistPageHandler
          (exampleEnv (Except.ok (lit "artists")) (Except.ok (lit "relation")) (Except.ok ⟨0, []⟩))
          (artistRequest "nonexistent")
        = ⟨[Event.get apiURL, Event.get (apiUrlRelations ++ lit "/0"),
            Event.execute (lit "templates/artistpage.html") Artist.zero ⟨0, []⟩], some ()⟩ := by
  decide

/-- C2, amended: when no artist of the list has exactly the requested name, the
lookup of `artistPageHandler` yields no NotFound outcome but the zero-valued
`Artist` (ID 0, empty name), and the handler goes on with it as with a found
artist: when the relation request for identifier `0` and the template parsing
succeed, the zero-valued `Artist` and that relation are handed to the template. -/
theorem lookup_no_match_zero_artist (env : Env) (r : Request) (body : GoString)
    (artists : List Artist)
    (hget : env.httpGet apiURL = Except.ok body)
    (hdec : env.decodeArtists body = Except.ok artists)
    (hname : r.Get (lit "artist") ≠ [])
    (hno : ∀ a ∈ artists, a.Name ≠ r.Get (lit "artist")) :
    lookupLoop (r.Get (lit "artist")) artists Artist.zero = Artist.zero
      ∧ ∀ (rbody : GoString) (relation : ApiRelations),
          env.httpGet (apiUrlRelations ++ lit "/" ++ lit "0") = Except.ok rbody →
          env.decodeRelation rbody = Except.ok relation →
          env.parseFiles (lit "templates/artistpage.html") = true →
          artistPageHandler env r
            = ⟨[Event.get apiURL, Event.get (apiUrlRelations ++ lit "/" ++ lit "0")]
                ++ (Event.execute (lit "templates/artistpage.html") Artist.zero relation
                  :: (if env.executeDetail Artist.zero relation then []
                      else [Event.httpError 500])),
              some ()⟩ := by
  have hz := lookupLoop_no_match (r.Get (lit "artist")) artists Artist.zero hno
  refine ⟨hz, ?_⟩
  intro rbody relation h1 h2 hp
  rw [artistPageHandler_named env r artists (fetch_ok env body artists hget hdec) hname,
    hz, Itoa_zero, h1]
  simp only [h2, hp, if_true]

/-- Witness of the amended C2: the name `nonexistent` in the example list, with an
upstream that answers the relation request for `0`. -/
theorem lookup_no_match_zero_artist_witness :
    lookupLoop ((artistRequest "nonexistent").Get (lit "artist")) exampleArtists Artist.zero
        = Artist.zero
      ∧ artistPageHandler
          (exampleEnv (Except.ok (lit "artists")) (Except.ok (lit "relation"))
            (Except.ok ⟨0, []⟩))
          (artistRequest "nonexistent")
        = ⟨[Event.get apiURL, Event.get (apiUrlRelations ++ lit "/" ++ lit "0")]
            ++ (Event.execute (lit "templates/artistpage.html") Artist.zero ⟨0, []⟩
              :: (if (exampleEnv (Except.ok (lit "artists")) (Except.ok (lit "relation"))
                    (Except.ok ⟨0, []⟩)).executeDetail Artist.zero ⟨0, []⟩ then []
                  else [Event.httpError 500])),
          some ()⟩ :=
  have h := lookup_no_match_zero_artist
    (exampleEnv (Except.ok (lit "artists")) (Except.ok (lit "relation")) (Except.ok ⟨0, []⟩))
    (artistRequest "nonexistent") (lit "artists") exampleArtists
    rfl rfl (by decide) (by decide)
  ⟨h.1, h.2 (lit "relation") ⟨0, []⟩ rfl rfl rfl⟩

/-- C3, refuted as stated: for the name `nonexistent`, which no artist of the
example list has, the handler still sends a relation request, for the identifier
`0`. -/
theorem relation_fetch_after_failed_lookup_counterexample :
    (∀ a ∈ exampleArtists, a.Name ≠ lit "nonexistent")
      ∧ requests (artistPageHandler
          (exampleEnv (Except.ok (lit "artists")) (Except.ok (lit "relation")) (Except.ok ⟨0, []⟩))
          (artistRequest "nonexistent")).events
        = [apiURL, apiUrlRelations ++ lit "/" ++ lit "0"] := by
  decide

/-- C3, amended: for a non-empty name that no artist of the fetched list has, the
handler sends exactly one relation request, and it is the request of `getConcert`
for the identifier `0`, whatever the upstream answers to it. -/
theorem relation_fetch_with_zero_id (env : Env) (r : Request) (body : GoString)
    (artists : List Artist)
    (hget : env.httpGet apiURL = Except.ok body)
    (hdec : env.decodeArtists body = Except.ok artists)
    (hname : r.Get (lit "artist") ≠ [])
    (hno : ∀ a ∈ artists, a.Name ≠ r.Get (lit "artist")) :
    requests (artistPageHandler env r).events = [apiURL, apiUrlRelations ++ lit "/" ++ lit "0"]
      ∧ requests (getConcert env (lit "0")).events = [apiUrlRelations ++ lit "/" ++ lit "0"] := by
  constructor
  · rw [requests_named env r artists (fetch_ok env body artists hget hdec) hname,
      lookupLoop_no_match (r.Get (lit "artist")) artists Artist.zero hno, Itoa_zero]
  · rw [getConcert_eq]
    cases h1 : env.httpGet (apiUrlRelations ++ lit "/" ++ lit "0") with
    | error err => simp only [requests]
    | ok rbody =>
      cases h2 : env.decodeRelation rbody with
      | error err => simp only [h2, requests]
      | ok relation => simp only [h2, requests]

/-- Witness of the amended C3: the name `nonexistent`, with an upstream that fails
on the relation request. -/
theorem relation_fetch_with_zero_id_witness :
    requests (artistPageHandler
        (exampleEnv (Except.ok (lit "artists")) (Except.error GoError.transport)
          (Except.ok ⟨0, []⟩))
        (artistRequest "nonexistent")).events
      = [apiURL, apiUrlRelations ++ lit "/" ++ lit "0"] :=
  (relation_fetch_with_zero_id
    (exampleEnv (Except.ok (lit "artists")) (Except.error GoError.transport) (Except.ok ⟨0, []⟩))
    (artistRequest "nonexistent") (lit "artists") exampleArtists
    rfl rfl (by decide) (by decide)).1

/-- C6, on the failing inputs: when the GET of the relation fails, or its body does
not decode, `getConcert` does not return: `log.Fatal` ends the process, and
`artistPageHandler` never answers the request for `Queen`. -/
theorem getConcert_failure_is_fatal :
    getConcert (exampleEnv (Except.ok (lit "artists")) (Except.error GoError.transport)
        (Except.ok ⟨1, []⟩)) (lit "1")
      = ⟨[Event.get (apiUrlRelations ++ lit "/1"), Event.fatal], none⟩
    ∧ getConcert (exampleEnv (Except.ok (lit "artists")) (Except.ok (lit "<html>"))
        (Except.error GoError.decode)) (lit "1")
      = ⟨[Event.get (apiUrlRelations ++ lit "/1"), Event.fatal], none⟩
    ∧ artistPageHandler (exampleEnv (Except.ok (lit "artists")) (Except.error GoError.transport)
        (Except.ok ⟨1, []⟩)) (artistRequest "Queen")
      = ⟨[Event.get apiURL, Event.get (apiUrlRelations ++ lit "/1"), Event.fatal], none⟩
    ∧ artistPageHandler (exampleEnv (Except.ok (lit "artists")) (Except.ok (lit "<html>"))
        (Except.error GoError.decode)) (artistRequest "Queen")
      = ⟨[Event.get apiURL, Event.get (apiUrlRelations ++ lit "/1"), Event.fatal], none⟩ := by
  refine ⟨rfl, rfl, ?_, ?_⟩ <;> decide

/-- The function `getConcert` never returns an error to its caller: it returns a relation or
the process exits. -/
theorem getConcert_returns_no_error (env : Env) (id : GoString) (err : GoError) :
    (getConcert env id).result ≠ some (Except.error err) := by
  rw [getConcert_eq]
  cases h1 : env.httpGet (apiUrlRelations ++ lit "/" ++ id) with
  | error e => simp
  | ok rbody =>
    cases h2 : env.decodeRelation rbody with
    | error e => simp [h2]
    | ok relation => simp [h2]

/-- C7, refuted as stated: a request without an `artist` parameter, while the
artists endpoint is unreachable, is answered with status 500, not 400. -/
theorem empty_name_fetch_failure_counterexample :
    Request.Get ⟨[]⟩ (lit "artist") = []
      ∧ artistPageHandler
          (exampleEnv (Except.error GoError.transport) (Except.ok (lit "relation"))
            (Except.ok ⟨0, []⟩))
          ⟨[]⟩
        = ⟨[Event.get apiURL, Event.httpError 500], some ()⟩ := by
  decide

/-- C7, amended: for a request whose `artist` parameter is empty or missing, the
handler first fetches the artist collection; when that fetch succeeds, whatever the
collection, it answers BadRequest (status 400) and does nothing else: the
collection is not used and no relation request is made; when the fetch fails
(transport or decoding), it answers status 500. -/
theorem empty_name_bad_request (env : Env) (r : Request)
    (hname : r.Get (lit "artist") = []) :
    (∀ (body : GoString) (artists : List Artist),
        env.httpGet apiURL = Except.ok body → env.decodeArtists body = Except.ok artists →
        artistPageHandler env r = ⟨[Event.get apiURL, Event.httpError 400], some ()⟩)
      ∧ (∀ err : GoError, env.httpGet apiURL = Except.error err →
        artistPageHandler env r = ⟨[Event.get apiURL, Event.httpError 500], some ()⟩)
      ∧ (∀ (body : GoString) (err : GoError),
        env.httpGet apiURL = Except.ok body → env.decodeArtists body = Except.error err →
        artistPageHandler env r = ⟨[Event.get apiURL, Event.httpError 500], some ()⟩) := by
  refine ⟨?_, ?_, ?_⟩
  · intro body artists hget hdec
    exact artistPageHandler_empty_name env r artists (fetch_ok env body artists hget hdec) hname
  · intro err hget
    exact artistPageHandler_fetch_error env r err (by rw [hget])
  · intro body err hget hdec
    exact artistPageHandler_fetch_error env r err (by rw [hget]; exact hdec)

/-- Witness of the amended C7: a request without any parameter, the artists
endpoint answering. -/
theorem empty_name_bad_request_witness :
    Request.Get ⟨[]⟩ (lit "artist") = []
      ∧ artistPageHandler
          (exampleEnv (Except.ok (lit "artists")) (Except.ok (lit "relation")) (Except.ok ⟨0, []⟩)) ⟨[]⟩
        = ⟨[Event.get apiURL, Event.httpError 400], some ()⟩ :=
  ⟨by decide,
    (empty_name_bad_request
      (exampleEnv (Except.ok (lit "artists")) (Except.ok (lit "relation")) (Except.ok ⟨0, []⟩)) ⟨[]⟩
      (by decide)).1 (lit "artists") exampleArtists rfl rfl⟩

/-- C8: for a non-empty name that some artist of the fetched list has, let `first`
be the artist at the smallest index with that name. The handler sends exactly one
relation request, to the relation endpoint followed by `/` and the decimal
rendering of `first.ID`; and when that request, its decoding and the template
parsing succeed, the data handed to the template is the pair of `first` and the
decoded relation. -/
theorem detail_of_first_match (env : Env) (r : Request) (body : GoString)
    (artists : List Artist)
    (hget : env.httpGet apiURL = Except.ok body)
    (hdec : env.decodeArtists body = Except.ok artists)
    (hname : r.Get (lit "artist") ≠ [])
    (hmatch : ∃ a ∈ artists, a.Name = r.Get (lit "artist")) :
    ∃ (i : Nat) (first : Artist),
      artists[i]? = some first ∧ first.Name = r.Get (lit "artist")
      ∧ (∀ j : Nat, j < i → ∀ b : Artist, artists[j]? = some b → b.Name ≠ r.Get (lit "artist"))
      ∧ requests (artistPageHandler env r).events
          = [apiURL, apiUrlRelations ++ lit "/" ++ Itoa first.ID]
      ∧ ∀ (rbody : GoString) (relation : ApiRelations),
          env.httpGet (apiUrlRelations ++ lit "/" ++ Itoa first.ID) = Except.ok rbody →
          env.decodeRelation rbody = Except.ok relation →
          env.parseFiles (lit "templates/artistpage.html") = true →
          artistPageHandler env r
            = ⟨[Event.get apiURL, Event.get (apiUrlRelations ++ lit "/" ++ Itoa first.ID)]
                ++ (Event.execute (lit "templates/artistpage.html") first relation
                  :: (if env.executeDetail first relation then []
                      else [Event.httpError 500])),
              some ()⟩ := by
  obtain ⟨i, hi1, hi2, hi3⟩ :=
    lookupLoop_first (r.Get (lit "artist")) artists Artist.zero hmatch
  have hf := fetch_ok env body artists hget hdec
  refine ⟨i, lookupLoop (r.Get (lit "artist")) artists Artist.zero, hi1, hi2, hi3,
    requests_named env r artists hf hname, ?_⟩
  intro rbody relation h1 h2 hp
  rw [artistPageHandler_named env r artists hf hname, h1]
  simp only [h2, hp, if_true]

/-- Witness of C8: the request for `Queen` on the example list is answered with
the artist 1 and the relation fetched at `/1`. -/
theorem detail_of_first_match_witness :
    ∃ (i : Nat) (first : Artist),
      exampleArtists[i]? = some first
      ∧ requests (artistPageHandler
          (exampleEnv (Except.ok (lit "artists")) (Except.ok (lit "relation")) (Except.ok ⟨1, []⟩))
          (artistRequest "Queen")).events
        = [apiURL, apiUrlRelations ++ lit "/" ++ Itoa first.ID] :=
  (detail_of_first_match
    (exampleEnv (Except.ok (lit "artists")) (Except.ok (lit "relation")) (Except.ok ⟨1, []⟩))
    (artistRequest "Queen") (lit "artists") exampleArtists rfl rfl (by decide)
    ⟨mkArtist 1 "Queen", by decide, by decide⟩).elim
    (fun i h => h.elim (fun first hf => ⟨i, first, hf.1, hf.2.2.2.1⟩))

end GroupieTracker
